import Mathlib

/-!
Verification development for the exchange-driver layer of gocryptotrader.

The Go sources embedded here are the driver wrappers for Gemini, Bitstamp,
ItBit and BTCC together with the shared `exchange` type declarations
(`exchange_types.go`).  Pure functions of the source become Lean functions;
the process-wide ticker / order-book stores are threaded through the driver
operations as explicit state; Go's `(value, error)` returns become
`value × Option String` (with `none` for a nil error) or `Except String value`
where the error aborts the operation; Go `float64` market data is modelled as
`ℚ`; Go `uint32` bit masks are modelled as `Nat` (all masks involved stay
below `2 ^ 32`, so no wraparound arises).

The `ticker`, `orderbook`, `request` and `config` packages and the shared
`exchange.Base` method set are referenced by the given sources but their
bodies are not among them; components taken from the specification instead of
source code carry a doc comment starting with `Modelled from the spec:`.
-/

/-- An ordered pair of currency symbols (base, quote); identity is the symbol
pair (spec §3, `CurrencyPair`). -/
structure CurrencyPair where
  base : String
  quote : String
  deriving DecidableEq, Repr

/-- `ticker.Price`: the common ticker snapshot a driver writes into the ticker
store.  Field set follows the assignments in the driver wrappers
(`Pair`, `Ask`, `Bid`, `Last`, `High`, `Low`, `Volume`); the Go zero value
`ticker.Price{}` is the record of defaults `{}`. -/
structure Price where
  pair : CurrencyPair := ⟨"", ""⟩
  ask : ℚ := 0
  bid : ℚ := 0
  last : ℚ := 0
  high : ℚ := 0
  low : ℚ := 0
  volume : ℚ := 0
  deriving DecidableEq, Repr

/-- `orderbook.Item`: one price level of an order book. -/
structure Item where
  price : ℚ := 0
  amount : ℚ := 0
  deriving DecidableEq, Repr

/-- `orderbook.Base`: an order-book snapshot, bid and ask levels kept as the
ordered sequences the driver built them in; the Go zero value
`orderbook.Base{}` is `{}`. -/
structure OrderbookBase where
  pair : CurrencyPair := ⟨"", ""⟩
  bids : List Item := []
  asks : List Item := []
  deriving DecidableEq, Repr

/-- Cache key of both market-data stores: (exchange name, currency pair,
asset type) (spec §3, `TickerKey` / `OrderBookKey`). -/
abbrev CacheKey := String × CurrencyPair × String

/-- First-match association-list lookup used by the modelled stores. -/
def lookupKey {α : Type} : List (CacheKey × α) → CacheKey → Option α
  | [], _ => none
  | (k, v) :: rest, key => if key = k then some v else lookupKey rest key

/-- Modelled from the spec: the `ticker` store package is not among the given
sources.  Spec §4.2: a keyed store of the latest snapshot per key; a write
replaces the prior snapshot (last write wins).  The store is an association
list whose most recent insertion for a key is found first. -/
abbrev TickerStore := List (CacheKey × Price)

/-- Modelled from the spec: the `orderbook` store package is not among the
given sources; same keyed-store contract as the ticker store (spec §4.2). -/
abbrev OrderbookStore := List (CacheKey × OrderbookBase)

namespace Ticker

/-- Modelled from the spec: `ticker.GetTicker` — `get(key) -> snapshot |
NotFound`, read-only, never triggers a fetch (spec §4.2). -/
def GetTicker (s : TickerStore) (exchangeName : String) (p : CurrencyPair)
    (assetType : String) : Except String Price :=
  match lookupKey s (exchangeName, p, assetType) with
  | some t => Except.ok t
  | none => Except.error "no ticker for key"

/-- Modelled from the spec: `ticker.ProcessTicker` — `put(key, snapshot)`,
unconditional overwrite, last write wins (spec §4.2). -/
def ProcessTicker (s : TickerStore) (exchangeName : String) (p : CurrencyPair)
    (tickerPrice : Price) (assetType : String) : TickerStore :=
  ((exchangeName, p, assetType), tickerPrice) :: s

end Ticker

namespace Orderbook

/-- Modelled from the spec: `orderbook.GetOrderbook` — `get(key) -> snapshot |
NotFound` (spec §4.2). -/
def GetOrderbook (s : OrderbookStore) (exchangeName : String) (p : CurrencyPair)
    (assetType : String) : Except String OrderbookBase :=
  match lookupKey s (exchangeName, p, assetType) with
  | some ob => Except.ok ob
  | none => Except.error "no orderbook for key"

/-- Modelled from the spec: `orderbook.ProcessOrderbook` — `put(key,
snapshot)`, unconditional overwrite (spec §4.2). -/
def ProcessOrderbook (s : OrderbookStore) (exchangeName : String)
    (p : CurrencyPair) (ob : OrderbookBase) (assetType : String) : OrderbookStore :=
  ((exchangeName, p, assetType), ob) :: s

end Orderbook

namespace Gemini

/-- The fields of the Gemini venue ticker consumed by `UpdateTicker`
(`tick.Ask`, `tick.Bid`, `tick.Last`, `tick.Volume.USD`). -/
structure TickerResponse where
  ask : ℚ := 0
  bid : ℚ := 0
  last : ℚ := 0
  volumeUSD : ℚ := 0
  deriving DecidableEq, Repr

/-- `(g *Gemini) UpdateTicker`: the upstream call `g.GetTicker(...)` is an
HTTP request, so its outcome enters as the explicit argument `fetched`; the
remainder is the source body: on fetch error return the zero ticker and the
error without touching the store, otherwise map the venue fields, store via
`ticker.ProcessTicker` and return `ticker.GetTicker` on the new store. -/
def UpdateTicker (s : TickerStore) (fetched : Except String TickerResponse)
    (p : CurrencyPair) (assetType : String) : TickerStore × Except String Price :=
  match fetched with
  | Except.error e => (s, Except.error e)
  | Except.ok tick =>
    let tickerPrice : Price :=
      { pair := p, ask := tick.ask, bid := tick.bid, last := tick.last,
        volume := tick.volumeUSD }
    let s' := Ticker.ProcessTicker s "Gemini" p tickerPrice assetType
    (s', Ticker.GetTicker s' "Gemini" p assetType)

/-- `(g *Gemini) FetchTicker`: try the cache first; on a miss defer to
`UpdateTicker`.  The trailing `Bool` records whether the upstream update path
was invoked (`true` exactly on the cache-miss branch). -/
def FetchTicker (s : TickerStore) (fetched : Except String TickerResponse)
    (p : CurrencyPair) (assetType : String) :
    TickerStore × Except String Price × Bool :=
  match Ticker.GetTicker s "Gemini" p assetType with
  | Except.ok tickerNew => (s, Except.ok tickerNew, false)
  | Except.error _ =>
    let r := UpdateTicker s fetched p assetType
    (r.1, r.2, true)

end Gemini

namespace Gemini

/-- One level of the Gemini venue order book (`orderbookNew.Bids[x].Price`,
`.Amount`, numeric fields). -/
structure Level where
  price : ℚ := 0
  amount : ℚ := 0
  deriving DecidableEq, Repr

/-- The Gemini venue order-book payload consumed by `UpdateOrderbook`. -/
structure OrderbookResponse where
  bids : List Level := []
  asks : List Level := []
  deriving DecidableEq, Repr

/-- `(g *Gemini) UpdateOrderbook`: on fetch error return the zero book and the
error without touching the store; otherwise append each received bid and ask
level, in input order, onto the initially empty snapshot, store it via
`orderbook.ProcessOrderbook` and return `orderbook.GetOrderbook` on the new
store. -/
def UpdateOrderbook (s : OrderbookStore) (fetched : Except String OrderbookResponse)
    (p : CurrencyPair) (assetType : String) :
    OrderbookStore × Except String OrderbookBase :=
  match fetched with
  | Except.error e => (s, Except.error e)
  | Except.ok raw =>
    let orderBook : OrderbookBase :=
      { bids := raw.bids.foldl
          (fun acc x => acc ++ [{ amount := x.amount, price := x.price }]) [],
        asks := raw.asks.foldl
          (fun acc x => acc ++ [{ amount := x.amount, price := x.price }]) [] }
    let s' := Orderbook.ProcessOrderbook s "Gemini" p orderBook assetType
    (s', Orderbook.GetOrderbook s' "Gemini" p assetType)

end Gemini

namespace Bitstamp

/-- One level of the Bitstamp venue order book (`data.Price`, `data.Amount`,
numeric fields). -/
structure Level where
  price : ℚ := 0
  amount : ℚ := 0
  deriving DecidableEq, Repr

/-- The Bitstamp venue order-book payload consumed by `UpdateOrderbook`. -/
structure OrderbookResponse where
  bids : List Level := []
  asks : List Level := []
  deriving DecidableEq, Repr

/-- `(b *Bitstamp) UpdateOrderbook`: same shape as the Gemini path — error
aborts before any store write, success appends the received levels in input
order, stores and re-reads the snapshot. -/
def UpdateOrderbook (s : OrderbookStore) (fetched : Except String OrderbookResponse)
    (p : CurrencyPair) (assetType : String) :
    OrderbookStore × Except String OrderbookBase :=
  match fetched with
  | Except.error e => (s, Except.error e)
  | Except.ok raw =>
    let orderBook : OrderbookBase :=
      { bids := raw.bids.foldl
          (fun acc data => acc ++ [{ amount := data.amount, price := data.price }]) [],
        asks := raw.asks.foldl
          (fun acc data => acc ++ [{ amount := data.amount, price := data.price }]) [] }
    let s' := Orderbook.ProcessOrderbook s "Bitstamp" p orderBook assetType
    (s', Orderbook.GetOrderbook s' "Bitstamp" p assetType)

/-- `(b *Bitstamp) FetchOrderbook`: try the cache first; on a miss defer to
`UpdateOrderbook`.  The trailing `Bool` records whether the upstream update
path was invoked. -/
def FetchOrderbook (s : OrderbookStore) (fetched : Except String OrderbookResponse)
    (p : CurrencyPair) (assetType : String) :
    OrderbookStore × Except String OrderbookBase × Bool :=
  match Orderbook.GetOrderbook s "Bitstamp" p assetType with
  | Except.ok ob => (s, Except.ok ob, false)
  | Except.error _ =>
    let r := UpdateOrderbook s fetched p assetType
    (r.1, r.2, true)

end Bitstamp

namespace ItBit

/-- One raw level of the ItBit venue order book: a pair of decimal strings,
`data[0]` the price and `data[1]` the amount. -/
abbrev RawLevel := String × String

/-- The ItBit venue order-book payload consumed by `UpdateOrderbook`. -/
structure OrderbookResponse where
  bids : List RawLevel := []
  asks : List RawLevel := []
  deriving DecidableEq, Repr

/-- `(i *ItBit) UpdateOrderbook`: each level's price and amount strings go
through `strconv.ParseFloat`; a parse failure is only logged and the Go value
returned alongside the error — zero — is used, so the level is kept with the
failing field defaulted to `0` and processing continues.  `ParseFloat`
(Go standard library, external to the repository) enters as the `parseFloat`
argument, `none` standing for a parse error. -/
def UpdateOrderbook (parseFloat : String → Option ℚ) (s : OrderbookStore)
    (fetched : Except String OrderbookResponse) (p : CurrencyPair)
    (assetType : String) : OrderbookStore × Except String OrderbookBase :=
  match fetched with
  | Except.error e => (s, Except.error e)
  | Except.ok raw =>
    let orderBook : OrderbookBase :=
      { bids := raw.bids.foldl
          (fun acc data =>
            acc ++ [{ amount := (parseFloat data.2).getD 0,
                      price := (parseFloat data.1).getD 0 }]) [],
        asks := raw.asks.foldl
          (fun acc data =>
            acc ++ [{ amount := (parseFloat data.2).getD 0,
                      price := (parseFloat data.1).getD 0 }]) [] }
    let s' := Orderbook.ProcessOrderbook s "ITBIT" p orderBook assetType
    (s', Orderbook.GetOrderbook s' "ITBIT" p assetType)

/-- The fields of the ItBit venue ticker consumed by `UpdateTicker`. -/
structure TickerResponse where
  ask : ℚ := 0
  bid : ℚ := 0
  lastPrice : ℚ := 0
  high24h : ℚ := 0
  low24h : ℚ := 0
  volume24h : ℚ := 0
  deriving DecidableEq, Repr

/-- `(i *ItBit) UpdateTicker`: on fetch error return the zero ticker and the
error without touching the store; otherwise map the venue fields, store and
re-read the snapshot. -/
def UpdateTicker (s : TickerStore) (fetched : Except String TickerResponse)
    (p : CurrencyPair) (assetType : String) : TickerStore × Except String Price :=
  match fetched with
  | Except.error e => (s, Except.error e)
  | Except.ok tick =>
    let tickerPrice : Price :=
      { pair := p, ask := tick.ask, bid := tick.bid, last := tick.lastPrice,
        high := tick.high24h, low := tick.low24h, volume := tick.volume24h }
    let s' := Ticker.ProcessTicker s "ITBIT" p tickerPrice assetType
    (s', Ticker.GetTicker s' "ITBIT" p assetType)

end ItBit

namespace BTCC

/-- `(b *BTCC) FetchTicker`: BTCC has no REST transport; the body is a single
return of the zero `ticker.Price` and an explicit error. -/
def FetchTicker (_p : CurrencyPair) (_assetType : String) : Price × Option String :=
  ({}, some "REST NOT SUPPORTED")

/-- `(b *BTCC) UpdateTicker`: zero ticker plus an explicit error. -/
def UpdateTicker (_p : CurrencyPair) (_assetType : String) : Price × Option String :=
  ({}, some "REST NOT SUPPORTED")

/-- `(b *BTCC) FetchOrderbook`: zero order book plus an explicit error. -/
def FetchOrderbook (_p : CurrencyPair) (_assetType : String) :
    OrderbookBase × Option String :=
  ({}, some "REST NOT SUPPORTED")

/-- `(b *BTCC) UpdateOrderbook`: zero order book plus an explicit error. -/
def UpdateOrderbook (_p : CurrencyPair) (_assetType : String) :
    OrderbookBase × Option String :=
  ({}, some "REST NOT SUPPORTED")

/-- `(b *BTCC) GetExchangeAccountInfo`: zero account info (name and currency
list of the Go zero value) plus an explicit error.  Modelled by the currency
list alone, the only data the callers consume. -/
def GetExchangeAccountInfo : (String × List (String × ℚ × ℚ)) × Option String :=
  (("", []), some "REST NOT SUPPORTED")

/-- `(b *BTCC) SubmitExchangeOrder`: unimplemented; zero order id plus an
explicit error.  `OrderSide` / `OrderType` are opaque to this body and enter
as strings. -/
def SubmitExchangeOrder (_p : CurrencyPair) (_side _orderType : String)
    (_amount _price : ℚ) (_clientID : String) : Int × Option String :=
  (0, some "not yet implemented")

end BTCC

/-- `(g *Gemini) SubmitExchangeOrder`: unimplemented; zero order id plus an
explicit error. -/
def Gemini.SubmitExchangeOrder (_p : CurrencyPair) (_side _orderType : String)
    (_amount _price : ℚ) (_clientID : String) : Int × Option String :=
  (0, some "not yet implemented")

/-- `(b *Bitstamp) SubmitExchangeOrder`: unimplemented; zero order id plus an
explicit error. -/
def Bitstamp.SubmitExchangeOrder (_p : CurrencyPair) (_side _orderType : String)
    (_amount _price : ℚ) (_clientID : String) : Int × Option String :=
  (0, some "not yet implemented")

/-- `(i *ItBit) SubmitExchangeOrder`: unimplemented; zero order id plus an
explicit error. -/
def ItBit.SubmitExchangeOrder (_p : CurrencyPair) (_side _orderType : String)
    (_amount _price : ℚ) (_clientID : String) : Int × Option String :=
  (0, some "not yet implemented")

namespace Exchange

/-- `exchange_types.go`: the withdrawal-capability bit constants and labels.
Go `uint32` constants become `Nat` (all below `2 ^ 32`). -/
def NoAPIWithdrawalMethods : Nat := 0

def NoAPIWithdrawalMethodsText : String := "NONE, WEBSITE ONLY"

def AutoWithdrawCrypto : Nat := 1 <<< 0

def AutoWithdrawCryptoWithAPIPermission : Nat := 1 <<< 1

def AutoWithdrawCryptoWithSetup : Nat := 1 <<< 2

def AutoWithdrawCryptoText : String := "AUTO WITHDRAW CRYPTO"

def AutoWithdrawCryptoWithAPIPermissionText : String :=
  "AUTO WITHDRAW CRYPTO WITH API PERMISSION"

def AutoWithdrawCryptoWithSetupText : String := "AUTO WITHDRAW CRYPTO WITH SETUP"

def WithdrawCryptoWith2FA : Nat := 1 <<< 3

def WithdrawCryptoWithSMS : Nat := 1 <<< 4

def WithdrawCryptoWithEmail : Nat := 1 <<< 5

def WithdrawCryptoWithWebsiteApproval : Nat := 1 <<< 6

def WithdrawCryptoWithAPIPermission : Nat := 1 <<< 7

def WithdrawCryptoWith2FAText : String := "WITHDRAW CRYPTO WITH 2FA"

def WithdrawCryptoWithSMSText : String := "WITHDRAW CRYPTO WITH SMS"

def WithdrawCryptoWithEmailText : String := "WITHDRAW CRYPTO WITH EMAIL"

def WithdrawCryptoWithWebsiteApprovalText : String :=
  "WITHDRAW CRYPTO WITH WEBSITE APPROVAL"

def WithdrawCryptoWithAPIPermissionText : String :=
  "WITHDRAW CRYPTO WITH API PERMISSION"

def AutoWithdrawFiat : Nat := 1 <<< 8

def AutoWithdrawFiatWithAPIPermission : Nat := 1 <<< 9

def AutoWithdrawFiatWithSetup : Nat := 1 <<< 10

def AutoWithdrawFiatText : String := "AUTO WITHDRAW FIAT"

def AutoWithdrawFiatWithAPIPermissionText : String :=
  "AUTO WITHDRAW FIAT WITH API PERMISSION"

def AutoWithdrawFiatWithSetupText : String := "AUTO WITHDRAW FIAT WITH SETUP"

def WithdrawFiatWith2FA : Nat := 1 <<< 11

def WithdrawFiatWithSMS : Nat := 1 <<< 12

def WithdrawFiatWithEmail : Nat := 1 <<< 13

def WithdrawFiatWithWebsiteApproval : Nat := 1 <<< 14

def WithdrawFiatWithAPIPermission : Nat := 1 <<< 15

def WithdrawFiatWith2FAText : String := "WITHDRAW FIAT WITH 2FA"

def WithdrawFiatWithSMSText : String := "WITHDRAW FIAT WITH SMS"

def WithdrawFiatWithEmailText : String := "WITHDRAW FIAT WITH EMAIL"

def WithdrawFiatWithWebsiteApprovalText : String :=
  "WITHDRAW FIAT WITH WEBSITE APPROVAL"

def WithdrawFiatWithAPIPermissionText : String :=
  "WITHDRAW FIAT WITH API PERMISSION"

def WithdrawCryptoViaWebsiteOnly : Nat := 1 <<< 16

def WithdrawFiatViaWebsiteOnly : Nat := 1 <<< 17

def WithdrawCryptoViaWebsiteOnlyText : String := "WITHDRAW CRYPTO VIA WEBSITE ONLY"

def WithdrawFiatViaWebsiteOnlyText : String := "WITHDRAW FIAT VIA WEBSITE ONLY"

def UnknownWithdrawalTypeText : String := "UNKNOWN"

/-- The eighteen withdrawal-capability flags with their labels, in
declaration order of `exchange_types.go`. -/
def withdrawPermissionTable : List (Nat × String) :=
  [(AutoWithdrawCrypto, AutoWithdrawCryptoText),
   (AutoWithdrawCryptoWithAPIPermission, AutoWithdrawCryptoWithAPIPermissionText),
   (AutoWithdrawCryptoWithSetup, AutoWithdrawCryptoWithSetupText),
   (WithdrawCryptoWith2FA, WithdrawCryptoWith2FAText),
   (WithdrawCryptoWithSMS, WithdrawCryptoWithSMSText),
   (WithdrawCryptoWithEmail, WithdrawCryptoWithEmailText),
   (WithdrawCryptoWithWebsiteApproval, WithdrawCryptoWithWebsiteApprovalText),
   (WithdrawCryptoWithAPIPermission, WithdrawCryptoWithAPIPermissionText),
   (AutoWithdrawFiat, AutoWithdrawFiatText),
   (AutoWithdrawFiatWithAPIPermission, AutoWithdrawFiatWithAPIPermissionText),
   (AutoWithdrawFiatWithSetup, AutoWithdrawFiatWithSetupText),
   (WithdrawFiatWith2FA, WithdrawFiatWith2FAText),
   (WithdrawFiatWithSMS, WithdrawFiatWithSMSText),
   (WithdrawFiatWithEmail, WithdrawFiatWithEmailText),
   (WithdrawFiatWithWebsiteApproval, WithdrawFiatWithWebsiteApprovalText),
   (WithdrawFiatWithAPIPermission, WithdrawFiatWithAPIPermissionText),
   (WithdrawCryptoViaWebsiteOnly, WithdrawCryptoViaWebsiteOnlyText),
   (WithdrawFiatViaWebsiteOnly, WithdrawFiatViaWebsiteOnlyText)]

/-- Modelled from the spec: the decode function over the capability mask
(`FormatWithdrawPermissions` of the `exchange` package) is not among the given
sources.  Spec §4.3: `decode(mask)` yields the subset of active capability
flags with their labels; a mask in which no flag bit matches decodes to the
explicit "no programmatic withdrawal, website only" sentinel rather than an
empty set. -/
def FormatWithdrawPermissions (mask : Nat) : List (Nat × String) :=
  let active := withdrawPermissionTable.filter fun fl => mask &&& fl.1 != 0
  if active.isEmpty then [(NoAPIWithdrawalMethods, NoAPIWithdrawalMethodsText)]
  else active

/-- Re-encoding a decoded flag list: bitwise-or of the returned flags
(spec §8, capability round trip). -/
def reencodeWithdrawPermissions (flags : List (Nat × String)) : Nat :=
  flags.foldl (fun acc fl => acc ||| fl.1) 0

/-- Flag constant at a given position of the table. -/
def flagOfIndex (i : Fin 18) : Nat := (withdrawPermissionTable.map Prod.fst).getD i 0

/-- A mask built by bitwise-or of a set of flags. -/
def maskOfFlagSet (s : Finset (Fin 18)) : Nat := s.fold (· ||| ·) 0 flagOfIndex

/-- The set of flag positions a mask decomposes into. -/
def flagSetOfMask (mask : Nat) : Finset (Fin 18) :=
  Finset.univ.filter fun i => mask &&& flagOfIndex i ≠ 0

end Exchange

namespace Request

/-- `request.NewRateLimit(duration, rate)`: a time window (`duration`, in
milliseconds) and the maximum number of calls admitted inside it.  The
`request` package itself is not among the given sources; the admission
behaviour below is modelled from the spec. -/
structure RateLimit where
  duration : Nat
  rate : Nat
  deriving DecidableEq, Repr

/-- Modelled from the spec: admission control of the request dispatcher
(spec §4.1).  Calls in excess of `rate` within one window must wait for the
window to roll over: with `admitted` the times of the calls already admitted
in order, a call requested at `t` is admitted at `t` while fewer than `rate`
calls have been admitted, and otherwise no earlier than one full window after
the admission that lies `rate` calls back. -/
def nextAdmit (r : RateLimit) (admitted : List Nat) (t : Nat) : Nat :=
  if admitted.length < r.rate then t
  else max t (admitted.getD (admitted.length - r.rate) 0 + r.duration)

/-- Sequential admission of a list of requests, extending the list of
admission times one request at a time. -/
def admitTimesAux (r : RateLimit) : List Nat → List Nat → List Nat
  | adm, [] => adm
  | adm, t :: ts => admitTimesAux r (adm ++ [nextAdmit r adm t]) ts

/-- Modelled from the spec: the admission times granted to a sequence of
requests (request times in issue order) against one rate-limit class; a later
admission time than the request time is the request blocking (spec §4.1). -/
def admitTimes (r : RateLimit) (reqs : List Nat) : List Nat :=
  admitTimesAux r [] reqs

/-- Sliding-window spacing guarantee: the admission that lies `rate` calls
after another is at least one full window later. -/
def GapOK (r : RateLimit) (admTimes : List Nat) : Prop :=
  ∀ i, i + r.rate < admTimes.length →
    admTimes.getD i 0 + r.duration ≤ admTimes.getD (i + r.rate) 0

end Request

namespace Exchange

/-- `config.CurrencyPairFormatConfig`: the delimiter / case formatting rule
fields the drivers assign. -/
structure CurrencyPairFormatConfig where
  delimiter : String := ""
  uppercase : Bool := false
  deriving DecidableEq, Repr

/-- `exchange.FeaturesEnabled` (`exchange_types.go`). -/
structure FeaturesEnabled where
  autoPairUpdates : Bool := false
  deriving DecidableEq, Repr

/-- `exchange.FeaturesSupported` (`exchange_types.go`). -/
structure FeaturesSupported where
  rest : Bool := false
  websocket : Bool := false
  autoPairUpdates : Bool := false
  restTickerBatching : Bool := false
  deriving DecidableEq, Repr

/-- `exchange.Features` (`exchange_types.go`). -/
structure Features where
  supports : FeaturesSupported := {}
  enabled : FeaturesEnabled := {}
  deriving DecidableEq, Repr

/-- The endpoint fields of `exchange.API` (`exchange_types.go`). -/
structure Endpoints where
  url : String := ""
  urlDefault : String := ""
  urlSecondary : String := ""
  urlSecondaryDefault : String := ""
  websocketURL : String := ""
  deriving DecidableEq, Repr

/-- `exchange.API` (`exchange_types.go`), endpoint and credential-validator
fields used by the drivers. -/
structure API where
  authenticatedSupport : Bool := false
  endpoints : Endpoints := {}
  credentialsValidatorRequiresClientID : Bool := false
  deriving DecidableEq, Repr

/-- The websocket handle state a driver owns: present after `WebsocketInit`,
carrying whether the session is enabled and which URL it targets. -/
structure WebsocketState where
  enabled : Bool := false
  url : String := ""
  deriving DecidableEq, Repr

/-- The requester state: one authenticated and one unauthenticated rate
limit, as built by `request.New` in `SetDefaults`. -/
structure Requester where
  authLimit : Request.RateLimit := ⟨0, 0⟩
  unauthLimit : Request.RateLimit := ⟨0, 0⟩
  deriving DecidableEq, Repr

/-- `exchange.Base` (`exchange_types.go`): the fields of the shared exchange
base that the four drivers read or write. -/
structure Base where
  name : String := ""
  enabled : Bool := false
  verbose : Bool := false
  apiWithdrawPermissions : Nat := 0
  api : API := {}
  takerFee : ℚ := 0
  makerFee : ℚ := 0
  fee : ℚ := 0
  baseCurrencies : List String := []
  availablePairs : List String := []
  enabledPairs : List String := []
  assetTypes : List String := []
  features : Features := {}
  requestCurrencyPairFormat : CurrencyPairFormatConfig := {}
  configCurrencyPairFormat : CurrencyPairFormatConfig := {}
  websocket : Option WebsocketState := none
  requester : Option Requester := none
  deriving DecidableEq, Repr

/-- Modelled from the spec: `(e *Base) SetEnabled` of the `exchange` package
is not among the given sources; it records the enabled flag on the base. -/
def Base.SetEnabled (b : Base) (e : Bool) : Base := { b with enabled := e }

/-- Modelled from the spec: the fields of `config.ExchangeConfig` consumed by
the four `Setup` bodies (spec §6, configuration surface). -/
structure ExchangeConfig where
  name : String := ""
  enabled : Bool := false
  useSandbox : Bool := false
  websocketEnabled : Bool := false
  websocketURL : String := ""
  deriving DecidableEq, Repr

end Exchange

/-- `(g *Gemini) Setup`: a disabled config only calls `SetEnabled(false)`;
an enabled config applies `SetupDefaults` (a method of the shared `exchange`
package, not among the given sources — it enters as the argument
`setupDefaults`; its `log.Fatal` error path terminates the process and so has
no return value to model) and then overwrites the endpoint URL with the
sandbox URL exactly when `UseSandbox` is set (`geminiSandboxAPIURL` is a
constant of the driver source not included here; it enters as the argument
`sandboxURL`). -/
def Gemini.Setup (setupDefaults : Exchange.Base → Exchange.ExchangeConfig → Exchange.Base)
    (sandboxURL : String) (b : Exchange.Base) (exch : Exchange.ExchangeConfig) :
    Exchange.Base :=
  if !exch.enabled then b.SetEnabled false
  else
    let b' := setupDefaults b exch
    if exch.useSandbox then
      { b' with api := { b'.api with endpoints := { b'.api.endpoints with url := sandboxURL } } }
    else b'

/-- `(i *ItBit) Setup`: a disabled config only calls `SetEnabled(false)`; an
enabled config applies `SetupDefaults`. -/
def ItBit.Setup (setupDefaults : Exchange.Base → Exchange.ExchangeConfig → Exchange.Base)
    (b : Exchange.Base) (exch : Exchange.ExchangeConfig) : Exchange.Base :=
  if !exch.enabled then b.SetEnabled false
  else setupDefaults b exch

/-- `(b *Bitstamp) Setup`: a disabled config only calls `SetEnabled(false)`;
an enabled config applies `SetupDefaults` then `WebsocketSetup` (also a
shared `exchange` method not among the given sources, entering as the
argument `websocketSetup`). -/
def Bitstamp.Setup (setupDefaults : Exchange.Base → Exchange.ExchangeConfig → Exchange.Base)
    (websocketSetup : Exchange.Base → Exchange.ExchangeConfig → Exchange.Base)
    (b : Exchange.Base) (exch : Exchange.ExchangeConfig) : Exchange.Base :=
  if !exch.enabled then b.SetEnabled false
  else websocketSetup (setupDefaults b exch) exch

/-- `(b *BTCC) Setup`: a disabled config only calls `SetEnabled(false)`; an
enabled config applies `SetupDefaults` then `WebsocketSetup`. -/
def BTCC.Setup (setupDefaults : Exchange.Base → Exchange.ExchangeConfig → Exchange.Base)
    (websocketSetup : Exchange.Base → Exchange.ExchangeConfig → Exchange.Base)
    (b : Exchange.Base) (exch : Exchange.ExchangeConfig) : Exchange.Base :=
  if !exch.enabled then b.SetEnabled false
  else websocketSetup (setupDefaults b exch) exch

instance : Std.Commutative (fun a b : Nat => a ||| b) := ⟨Nat.or_comm⟩

instance : Std.Associative (fun a b : Nat => a ||| b) := ⟨Nat.or_assoc⟩

/-- A Go `append` loop over the input levels starting from the empty slice is
elementwise `List.map`. -/
theorem foldl_append_singleton_eq_map {α β : Type} (f : α → β) (l : List α) :
    ∀ acc : List β, l.foldl (fun acc x => acc ++ [f x]) acc = acc ++ l.map f := by
  induction l with
  | nil => intro acc; simp
  | cons x xs ih => intro acc; simp [List.foldl, ih]

theorem lookupKey_cons_self {α : Type} (s : List (CacheKey × α)) (k : CacheKey) (v : α) :
    lookupKey ((k, v) :: s) k = some v := by
  simp [lookupKey]

/-- C1: a fetch operation on a cached key returns the stored snapshot without
invoking the upstream update path; on a cache miss it invokes the update
path, which stores the fetched snapshot and returns it, and a second fetch
for the same key returns the identical snapshot without fetching again.
Shown for `Gemini.FetchTicker` and `Bitstamp.FetchOrderbook`; the final
`Bool` component records whether the update path ran. -/
theorem fetch_returns_cached_else_populates_once
    (s s₀ : TickerStore) (t : Price) (tick : Gemini.TickerResponse)
    (f f' : Except String Gemini.TickerResponse)
    (sb sb₀ : OrderbookStore) (ob : OrderbookBase) (rawOb : Bitstamp.OrderbookResponse)
    (g g' : Except String Bitstamp.OrderbookResponse)
    (p : CurrencyPair) (a : String)
    (hhit : lookupKey s ("Gemini", p, a) = some t)
    (hmiss : lookupKey s₀ ("Gemini", p, a) = none)
    (hhitOb : lookupKey sb ("Bitstamp", p, a) = some ob)
    (hmissOb : lookupKey sb₀ ("Bitstamp", p, a) = none) :
    Gemini.FetchTicker s f p a = (s, Except.ok t, false) ∧
    (let tp : Price := { pair := p, ask := tick.ask, bid := tick.bid,
                         last := tick.last, volume := tick.volumeUSD }
     let s' := Ticker.ProcessTicker s₀ "Gemini" p tp a
     Gemini.FetchTicker s₀ (Except.ok tick) p a = (s', Except.ok tp, true) ∧
     Gemini.FetchTicker s' f' p a = (s', Except.ok tp, false)) ∧
    Bitstamp.FetchOrderbook sb g p a = (sb, Except.ok ob, false) ∧
    (let book : OrderbookBase :=
       { bids := rawOb.bids.map fun d => { amount := d.amount, price := d.price },
         asks := rawOb.asks.map fun d => { amount := d.amount, price := d.price } }
     let sb' := Orderbook.ProcessOrderbook sb₀ "Bitstamp" p book a
     Bitstamp.FetchOrderbook sb₀ (Except.ok rawOb) p a = (sb', Except.ok book, true) ∧
     Bitstamp.FetchOrderbook sb' g' p a = (sb', Except.ok book, false)) := by
  refine ⟨?_, ⟨?_, ?_⟩, ?_, ⟨?_, ?_⟩⟩
  · simp [Gemini.FetchTicker, Ticker.GetTicker, hhit]
  · simp [Gemini.FetchTicker, Gemini.UpdateTicker, Ticker.GetTicker,
      Ticker.ProcessTicker, hmiss, lookupKey_cons_self]
  · simp [Gemini.FetchTicker, Ticker.GetTicker, Ticker.ProcessTicker, lookupKey_cons_self]
  · simp [Bitstamp.FetchOrderbook, Orderbook.GetOrderbook, hhitOb]
  · simp [Bitstamp.FetchOrderbook, Bitstamp.UpdateOrderbook, Orderbook.GetOrderbook,
      Orderbook.ProcessOrderbook, hmissOb, lookupKey_cons_self,
      foldl_append_singleton_eq_map]
  · simp [Bitstamp.FetchOrderbook, Orderbook.GetOrderbook, Orderbook.ProcessOrderbook,
      lookupKey_cons_self, foldl_append_singleton_eq_map]

theorem fetch_returns_cached_else_populates_once_witness :
    (lookupKey [(("Gemini", ⟨"BTC", "USD"⟩, "SPOT"), ({ bid := 7 } : Price))]
       ("Gemini", ⟨"BTC", "USD"⟩, "SPOT") = some { bid := 7 }) ∧
    (Gemini.FetchTicker [(("Gemini", ⟨"BTC", "USD"⟩, "SPOT"), { bid := 7 })]
       (Except.ok { ask := 101, bid := 100 }) ⟨"BTC", "USD"⟩ "SPOT" =
       ([(("Gemini", ⟨"BTC", "USD"⟩, "SPOT"), { bid := 7 })],
        Except.ok { bid := 7 }, false)) ∧
    (let tp : Price := { pair := ⟨"BTC", "USD"⟩, ask := 101, bid := 100,
                         last := 0, volume := 0 }
     let s' := Ticker.ProcessTicker [] "Gemini" ⟨"BTC", "USD"⟩ tp "SPOT"
     Gemini.FetchTicker [] (Except.ok { ask := 101, bid := 100 }) ⟨"BTC", "USD"⟩ "SPOT" =
       (s', Except.ok tp, true) ∧
     Gemini.FetchTicker s' (Except.error "down") ⟨"BTC", "USD"⟩ "SPOT" =
       (s', Except.ok tp, false)) := by
  have h := fetch_returns_cached_else_populates_once
    [(("Gemini", ⟨"BTC", "USD"⟩, "SPOT"), { bid := 7 })] [] { bid := 7 }
    { ask := 101, bid := 100 } (Except.ok { ask := 101, bid := 100 }) (Except.error "down")
    [(("Bitstamp", ⟨"BTC", "USD"⟩, "SPOT"), ({} : OrderbookBase))] [] {} {}
    (Except.ok {}) (Except.ok {}) ⟨"BTC", "USD"⟩ "SPOT"
    (by rfl) (by rfl) (by rfl) (by rfl)
  exact ⟨by rfl, h.1, h.2.1⟩

/-- C2: operations a driver does not back return an explicit error together
with the zero result: `SubmitExchangeOrder` on all four drivers, and the
market-data and account operations of BTCC, which has no REST transport.
Each is a total Lean function returning that pair on every input, the
embedding of a body that neither panics nor blocks. -/
theorem unimplemented_ops_return_error_and_zero :
    (∀ p side orderType amount price clientID,
      Gemini.SubmitExchangeOrder p side orderType amount price clientID =
        (0, some "not yet implemented")) ∧
    (∀ p side orderType amount price clientID,
      Bitstamp.SubmitExchangeOrder p side orderType amount price clientID =
        (0, some "not yet implemented")) ∧
    (∀ p side orderType amount price clientID,
      ItBit.SubmitExchangeOrder p side orderType amount price clientID =
        (0, some "not yet implemented")) ∧
    (∀ p side orderType amount price clientID,
      BTCC.SubmitExchangeOrder p side orderType amount price clientID =
        (0, some "not yet implemented")) ∧
    (∀ p a, BTCC.FetchTicker p a = ({}, some "REST NOT SUPPORTED")) ∧
    (∀ p a, BTCC.UpdateTicker p a = ({}, some "REST NOT SUPPORTED")) ∧
    (∀ p a, BTCC.FetchOrderbook p a = ({}, some "REST NOT SUPPORTED")) ∧
    (∀ p a, BTCC.UpdateOrderbook p a = ({}, some "REST NOT SUPPORTED")) ∧
    BTCC.GetExchangeAccountInfo = (("", []), some "REST NOT SUPPORTED") := by
  exact ⟨fun _ _ _ _ _ _ => rfl, fun _ _ _ _ _ _ => rfl, fun _ _ _ _ _ _ => rfl,
    fun _ _ _ _ _ _ => rfl, fun _ _ => rfl, fun _ _ => rfl, fun _ _ => rfl,
    fun _ _ => rfl, rfl⟩

/-- C3: a failed upstream fetch inside an update operation returns the error
with the store exactly as it was — the store write (`ProcessTicker` /
`ProcessOrderbook`) is never reached, so the stale-or-absent entry survives
for a later retry.  Shown for all update paths of the given drivers. -/
theorem failed_update_leaves_cache_untouched :
    (∀ (s : TickerStore) (e : String) (p : CurrencyPair) (a : String),
      Gemini.UpdateTicker s (Except.error e) p a = (s, Except.error e)) ∧
    (∀ (s : TickerStore) (e : String) (p : CurrencyPair) (a : String),
      ItBit.UpdateTicker s (Except.error e) p a = (s, Except.error e)) ∧
    (∀ (s : OrderbookStore) (e : String) (p : CurrencyPair) (a : String),
      Gemini.UpdateOrderbook s (Except.error e) p a = (s, Except.error e)) ∧
    (∀ (s : OrderbookStore) (e : String) (p : CurrencyPair) (a : String),
      Bitstamp.UpdateOrderbook s (Except.error e) p a = (s, Except.error e)) ∧
    (∀ (parseFloat : String → Option ℚ) (s : OrderbookStore) (e : String)
        (p : CurrencyPair) (a : String),
      ItBit.UpdateOrderbook parseFloat s (Except.error e) p a = (s, Except.error e)) := by
  exact ⟨fun _ _ _ _ => rfl, fun _ _ _ _ => rfl, fun _ _ _ _ => rfl,
    fun _ _ _ _ => rfl, fun _ _ _ _ _ => rfl⟩

/-- C4: decoding the zero capability mask yields exactly the explicit
"NONE, WEBSITE ONLY" sentinel entry, never an empty label set. -/
theorem zero_mask_decodes_to_website_only_sentinel :
    Exchange.FormatWithdrawPermissions 0 =
      [(Exchange.NoAPIWithdrawalMethods, Exchange.NoAPIWithdrawalMethodsText)] ∧
    Exchange.NoAPIWithdrawalMethodsText = "NONE, WEBSITE ONLY" ∧
    Exchange.FormatWithdrawPermissions 0 ≠ [] := by
  refine ⟨by rfl, by rfl, by decide⟩

/-- C6: an order-book update stores the bid and ask levels in exactly the
relative order received from the venue — the update path appends the levels
in input order (elementwise `List.map`, so the `n`-th stored level is the
`n`-th received level) with no sorting or crossed-book validation — and a
subsequent `GetOrderbook` returns them in that same order.  Shown for the
Gemini and ItBit update paths. -/
theorem orderbook_update_preserves_level_order
    (s si : OrderbookStore) (raw : Gemini.OrderbookResponse)
    (rawI : ItBit.OrderbookResponse) (parseFloat : String → Option ℚ)
    (p : CurrencyPair) (a : String) :
    (let ob : OrderbookBase :=
       { bids := raw.bids.map fun x => { amount := x.amount, price := x.price },
         asks := raw.asks.map fun x => { amount := x.amount, price := x.price } }
     Gemini.UpdateOrderbook s (Except.ok raw) p a =
       (Orderbook.ProcessOrderbook s "Gemini" p ob a, Except.ok ob) ∧
     Orderbook.GetOrderbook (Orderbook.ProcessOrderbook s "Gemini" p ob a) "Gemini" p a =
       Except.ok ob) ∧
    (let obI : OrderbookBase :=
       { bids := rawI.bids.map fun d =>
           { amount := (parseFloat d.2).getD 0, price := (parseFloat d.1).getD 0 },
         asks := rawI.asks.map fun d =>
           { amount := (parseFloat d.2).getD 0, price := (parseFloat d.1).getD 0 } }
     ItBit.UpdateOrderbook parseFloat si (Except.ok rawI) p a =
       (Orderbook.ProcessOrderbook si "ITBIT" p obI a, Except.ok obI) ∧
     Orderbook.GetOrderbook (Orderbook.ProcessOrderbook si "ITBIT" p obI a) "ITBIT" p a =
       Except.ok obI) := by
  refine ⟨⟨?_, ?_⟩, ⟨?_, ?_⟩⟩
  · simp [Gemini.UpdateOrderbook, Orderbook.GetOrderbook, Orderbook.ProcessOrderbook,
      foldl_append_singleton_eq_map, lookupKey_cons_self]
  · simp [Orderbook.GetOrderbook, Orderbook.ProcessOrderbook, lookupKey_cons_self]
  · simp [ItBit.UpdateOrderbook, Orderbook.GetOrderbook, Orderbook.ProcessOrderbook,
      foldl_append_singleton_eq_map, lookupKey_cons_self]
  · simp [Orderbook.GetOrderbook, Orderbook.ProcessOrderbook, lookupKey_cons_self]

/-- C7: in the ItBit order-book update a level whose price or amount string
fails numeric parsing is recovered locally — the failing field defaults to
zero and the remaining levels are still processed — so the produced snapshot
holds one entry per received level, each carrying the parsed-or-defaulted
fields of the corresponding input level. -/
theorem itbit_malformed_level_defaults_and_snapshot_complete
    (parseFloat : String → Option ℚ) (s : OrderbookStore)
    (raw : ItBit.OrderbookResponse) (p : CurrencyPair) (a : String)
    (i j : Nat) (hb : i < raw.bids.length) (ha : j < raw.asks.length) :
    ∃ ob : OrderbookBase,
      (ItBit.UpdateOrderbook parseFloat s (Except.ok raw) p a).2 = Except.ok ob ∧
      ob.bids.length = raw.bids.length ∧
      ob.asks.length = raw.asks.length ∧
      ob.bids.getD i {} =
        { price := (parseFloat (raw.bids.get ⟨i, hb⟩).1).getD 0,
          amount := (parseFloat (raw.bids.get ⟨i, hb⟩).2).getD 0 } ∧
      ob.asks.getD j {} =
        { price := (parseFloat (raw.asks.get ⟨j, ha⟩).1).getD 0,
          amount := (parseFloat (raw.asks.get ⟨j, ha⟩).2).getD 0 } := by
  refine ⟨{ bids := raw.bids.map fun d =>
              { amount := (parseFloat d.2).getD 0, price := (parseFloat d.1).getD 0 },
            asks := raw.asks.map fun d =>
              { amount := (parseFloat d.2).getD 0, price := (parseFloat d.1).getD 0 } },
          ?_, ?_, ?_, ?_, ?_⟩
  · simp [ItBit.UpdateOrderbook, Orderbook.GetOrderbook, Orderbook.ProcessOrderbook,
      foldl_append_singleton_eq_map, lookupKey_cons_self]
  · simp
  · simp
  · rw [List.getD_eq_getElem _ _ (by simpa using hb)]
    simp [List.getElem_map]
  · rw [List.getD_eq_getElem _ _ (by simpa using ha)]
    simp [List.getElem_map]

theorem itbit_malformed_level_witness :
    (0 < 2) ∧ (0 < 2) ∧
    ∃ ob : OrderbookBase,
      (ItBit.UpdateOrderbook
          (fun str => if str = "bad" then none else some 5) []
          (Except.ok { bids := [("bad", "1"), ("99", "2")],
                       asks := [("101", "1"), ("102", "oops")] })
          ⟨"XBT", "USD"⟩ "SPOT").2 = Except.ok ob ∧
      ob.bids.length = 2 ∧ ob.asks.length = 2 ∧
      ob.bids.getD 0 {} = { price := 0, amount := 5 } ∧
      ob.asks.getD 0 {} = { price := 5, amount := 5 } := by
  have h := itbit_malformed_level_defaults_and_snapshot_complete
    (fun str => if str = "bad" then none else some 5) []
    { bids := [("bad", "1"), ("99", "2")], asks := [("101", "1"), ("102", "oops")] }
    ⟨"XBT", "USD"⟩ "SPOT" 0 0 (by decide) (by decide)
  exact ⟨by decide, by decide, h⟩

/-- C10: `Setup` with a disabled exchange config only disables the exchange —
for every driver the result is the input base with `enabled := false` and
every other field (endpoints, pair formats, withdrawal-permission mask,
requester, websocket state) unchanged; and Gemini's sandbox URL overwrite
happens exactly when the config is enabled and `UseSandbox` is set,
quantified over every possible `SetupDefaults` / `WebsocketSetup` behaviour
and sandbox URL. -/
theorem setup_disabled_only_disables
    (setupDefaults websocketSetup : Exchange.Base → Exchange.ExchangeConfig → Exchange.Base)
    (sandboxURL : String) (b : Exchange.Base) (exch exch' : Exchange.ExchangeConfig)
    (hdis : exch.enabled = false) (hen : exch'.enabled = true) :
    Gemini.Setup setupDefaults sandboxURL b exch = { b with enabled := false } ∧
    Bitstamp.Setup setupDefaults websocketSetup b exch = { b with enabled := false } ∧
    ItBit.Setup setupDefaults b exch = { b with enabled := false } ∧
    BTCC.Setup setupDefaults websocketSetup b exch = { b with enabled := false } ∧
    (exch'.useSandbox = true →
      (Gemini.Setup setupDefaults sandboxURL b exch').api.endpoints.url = sandboxURL) ∧
    (exch'.useSandbox = false →
      Gemini.Setup setupDefaults sandboxURL b exch' = setupDefaults b exch') := by
  refine ⟨?_, ?_, ?_, ?_, ?_, ?_⟩
  · simp [Gemini.Setup, Exchange.Base.SetEnabled, hdis]
  · simp [Bitstamp.Setup, Exchange.Base.SetEnabled, hdis]
  · simp [ItBit.Setup, Exchange.Base.SetEnabled, hdis]
  · simp [BTCC.Setup, Exchange.Base.SetEnabled, hdis]
  · intro hsb; simp [Gemini.Setup, hen, hsb]
  · intro hsb; simp [Gemini.Setup, hen, hsb]

theorem setup_disabled_only_disables_witness :
    (({ enabled := false, useSandbox := true } : Exchange.ExchangeConfig).enabled = false) ∧
    (({ enabled := true, useSandbox := true } : Exchange.ExchangeConfig).enabled = true) ∧
    (Gemini.Setup (fun base _ => base) "sandbox.example"
        { name := "Gemini", enabled := true, apiWithdrawPermissions := 6 }
        { enabled := false, useSandbox := true } =
      { name := "Gemini", enabled := false, apiWithdrawPermissions := 6 } ∧
     Bitstamp.Setup (fun base _ => base) (fun base _ => base)
        { name := "Gemini", enabled := true, apiWithdrawPermissions := 6 }
        { enabled := false, useSandbox := true } =
      { name := "Gemini", enabled := false, apiWithdrawPermissions := 6 } ∧
     ItBit.Setup (fun base _ => base)
        { name := "Gemini", enabled := true, apiWithdrawPermissions := 6 }
        { enabled := false, useSandbox := true } =
      { name := "Gemini", enabled := false, apiWithdrawPermissions := 6 } ∧
     BTCC.Setup (fun base _ => base) (fun base _ => base)
        { name := "Gemini", enabled := true, apiWithdrawPermissions := 6 }
        { enabled := false, useSandbox := true } =
      { name := "Gemini", enabled := false, apiWithdrawPermissions := 6 } ∧
     (({ enabled := true, useSandbox := true } : Exchange.ExchangeConfig).useSandbox = true →
       (Gemini.Setup (fun base _ => base) "sandbox.example"
          { name := "Gemini", enabled := true, apiWithdrawPermissions := 6 }
          { enabled := true, useSandbox := true }).api.endpoints.url = "sandbox.example") ∧
     (({ enabled := true, useSandbox := true } : Exchange.ExchangeConfig).useSandbox = false →
       Gemini.Setup (fun base _ => base) "sandbox.example"
          { name := "Gemini", enabled := true, apiWithdrawPermissions := 6 }
          { enabled := true, useSandbox := true } =
        (fun (base : Exchange.Base) (_ : Exchange.ExchangeConfig) => base)
          { name := "Gemini", enabled := true, apiWithdrawPermissions := 6 }
          { enabled := true, useSandbox := true })) := by
  refine ⟨rfl, rfl, ?_⟩
  exact setup_disabled_only_disables (fun base _ => base) (fun base _ => base)
    "sandbox.example" { name := "Gemini", enabled := true, apiWithdrawPermissions := 6 }
    { enabled := false, useSandbox := true } { enabled := true, useSandbox := true }
    rfl rfl

theorem testBit_foldl_or (l : List (Nat × String)) (a j : Nat) :
    (l.foldl (fun acc fl => acc ||| fl.1) a).testBit j
      = (a.testBit j || l.any fun fl => fl.1.testBit j) := by
  induction l generalizing a with
  | nil => simp
  | cons x xs ih => simp [List.foldl, ih, Nat.testBit_or, Bool.or_assoc]

theorem and_two_pow_ne_zero (mask k : Nat) :
    (mask &&& 2 ^ k ≠ 0) ↔ mask.testBit k = true := by
  rw [Nat.and_two_pow]
  cases h : mask.testBit k <;> simp [h, Nat.pos_iff_ne_zero.symm, Nat.pos_pow_of_pos]

theorem map_fst_withdrawPermissionTable :
    Exchange.withdrawPermissionTable.map Prod.fst = (List.range 18).map fun i => 2 ^ i := by
  decide

theorem testBit_lt_of_lt {mask i n : Nat} (h : mask < 2 ^ n) (hi : mask.testBit i = true) :
    i < n := by
  by_contra hge
  have hlt : mask < 2 ^ i :=
    lt_of_lt_of_le h (Nat.pow_le_pow_right (by norm_num) (by omega))
  rw [Nat.testBit_eq_false_of_lt hlt] at hi
  exact Bool.false_ne_true hi

theorem any_formatWithdrawPermissions (mask j : Nat) (h : mask < 2 ^ 18) (h0 : mask ≠ 0) :
    ((Exchange.FormatWithdrawPermissions mask).any fun fl => fl.1.testBit j)
      = mask.testBit j := by
  obtain ⟨i, hi⟩ := Nat.ne_zero_implies_bit_true h0
  have hi18 : i < 18 := testBit_lt_of_lt h hi
  have hpow : (2 : Nat) ^ i ∈ Exchange.withdrawPermissionTable.map Prod.fst := by
    rw [map_fst_withdrawPermissionTable]
    exact List.mem_map.mpr ⟨i, List.mem_range.mpr hi18, rfl⟩
  obtain ⟨fl, hfl, hfst⟩ := List.mem_map.mp hpow
  have hne : mask &&& fl.1 ≠ 0 := by
    rw [hfst]; exact (and_two_pow_ne_zero mask i).mpr hi
  have hmem : fl ∈ Exchange.withdrawPermissionTable.filter fun fl => mask &&& fl.1 != 0 :=
    List.mem_filter.mpr ⟨hfl, by simpa using hne⟩
  have hact : (Exchange.withdrawPermissionTable.filter
      fun fl => mask &&& fl.1 != 0).isEmpty = false := by
    cases hq : Exchange.withdrawPermissionTable.filter fun fl => mask &&& fl.1 != 0 with
    | nil => rw [hq] at hmem; simp at hmem
    | cons y ys => simp [hq]
  rw [show Exchange.FormatWithdrawPermissions mask
      = Exchange.withdrawPermissionTable.filter fun fl => mask &&& fl.1 != 0 by
    unfold Exchange.FormatWithdrawPermissions; simp [hact]]
  rw [List.any_filter]
  rw [Bool.eq_iff_iff, List.any_eq_true]
  constructor
  · rintro ⟨fl', hfl', hp⟩
    have hmm : fl'.1 ∈ Exchange.withdrawPermissionTable.map Prod.fst :=
      List.mem_map.mpr ⟨fl', hfl', rfl⟩
    rw [map_fst_withdrawPermissionTable] at hmm
    obtain ⟨k, _, hfk⟩ := List.mem_map.mp hmm
    rw [← hfk] at hp
    simp only [Bool.and_eq_true, bne_iff_ne, ne_eq] at hp
    obtain ⟨hne', hbit⟩ := hp
    rw [Nat.testBit_two_pow] at hbit
    have hkj : k = j := by simpa using hbit
    subst hkj
    exact (and_two_pow_ne_zero mask k).mp hne'
  · intro hbit
    have hj18 : j < 18 := testBit_lt_of_lt h hbit
    have hpj : (2 : Nat) ^ j ∈ Exchange.withdrawPermissionTable.map Prod.fst := by
      rw [map_fst_withdrawPermissionTable]
      exact List.mem_map.mpr ⟨j, List.mem_range.mpr hj18, rfl⟩
    obtain ⟨fl', hfl', hfst'⟩ := List.mem_map.mp hpj
    refine ⟨fl', hfl', ?_⟩
    simp only [Bool.and_eq_true, bne_iff_ne, ne_eq]
    exact ⟨by rw [hfst']; exact (and_two_pow_ne_zero mask j).mpr hbit,
      by rw [hfst', Nat.testBit_two_pow]; simp⟩

/-- C5 counterexample: the decode / re-encode round trip fails for the
32-bit mask `2 ^ 18 = 262144`, whose single set bit lies outside the eighteen
defined flag positions — decoding yields the sentinel only, and re-encoding
gives `0`, not the original mask.  The round trip as claimed for every mask
is therefore false. -/
theorem capability_roundtrip_fails_beyond_defined_bits :
    Exchange.reencodeWithdrawPermissions
      (Exchange.FormatWithdrawPermissions 262144) ≠ 262144 := by
  decide

/-- C5 (amended): for every capability mask composed of the eighteen defined
flag bits — every `mask < 2 ^ 18` — decoding the mask and re-encoding
(bitwise-or of) the returned flags reproduces the mask exactly; the zero
mask round-trips through the sentinel entry, whose flag value is `0`. -/
theorem capability_roundtrip_within_defined_bits (mask : Nat) (h : mask < 2 ^ 18) :
    Exchange.reencodeWithdrawPermissions (Exchange.FormatWithdrawPermissions mask)
      = mask := by
  by_cases h0 : mask = 0
  · subst h0; rfl
  · apply Nat.eq_of_testBit_eq
    intro j
    rw [Exchange.reencodeWithdrawPermissions, testBit_foldl_or, Nat.zero_testBit,
      Bool.false_or, any_formatWithdrawPermissions mask j h h0]

theorem capability_roundtrip_within_defined_bits_witness :
    262143 < 2 ^ 18 ∧
    Exchange.reencodeWithdrawPermissions (Exchange.FormatWithdrawPermissions 262143)
      = 262143 :=
  ⟨by decide, capability_roundtrip_within_defined_bits 262143 (by decide)⟩

theorem flagOfIndex_eq : ∀ i : Fin 18, Exchange.flagOfIndex i = 2 ^ (i : Nat) := by
  decide

theorem testBit_maskOfFlagSet (s : Finset (Fin 18)) (j : Nat) :
    (Exchange.maskOfFlagSet s).testBit j = true ↔ ∃ i ∈ s, (i : Nat) = j := by
  induction s using Finset.induction_on with
  | empty => simp [Exchange.maskOfFlagSet]
  | @insert a s ha ih =>
    rw [Exchange.maskOfFlagSet, Finset.fold_insert ha]
    rw [Nat.testBit_or]
    rw [flagOfIndex_eq a, Nat.testBit_two_pow]
    simp only [Bool.or_eq_true, decide_eq_true_eq]
    rw [Exchange.maskOfFlagSet] at ih
    rw [ih]
    constructor
    · rintro (h | ⟨i, hi, rfl⟩)
      · exact ⟨a, Finset.mem_insert_self a s, h⟩
      · exact ⟨i, Finset.mem_insert_of_mem hi, rfl⟩
    · rintro ⟨i, hi, rfl⟩
      rcases Finset.mem_insert.mp hi with rfl | hmem
      · exact Or.inl rfl
      · exact Or.inr ⟨i, hmem, rfl⟩

/-- C9: the eighteen withdrawal-capability flag constants are exactly the
powers of two at bit positions `0` through `17`, in declaration order, with
no gaps or overlaps (the flag list is duplicate-free), and every mask built
by bitwise-or of a set of these flags decomposes back into exactly that set —
the decomposition is unique. -/
theorem withdrawal_flags_distinct_powers_unique_decomposition :
    (Exchange.withdrawPermissionTable.map Prod.fst
      = (List.range 18).map fun i => 2 ^ i) ∧
    (Exchange.withdrawPermissionTable.map Prod.fst).Nodup ∧
    (∀ s : Finset (Fin 18),
      Exchange.flagSetOfMask (Exchange.maskOfFlagSet s) = s) ∧
    (∀ s t : Finset (Fin 18),
      Exchange.maskOfFlagSet s = Exchange.maskOfFlagSet t → s = t) := by
  have hdecomp : ∀ s : Finset (Fin 18),
      Exchange.flagSetOfMask (Exchange.maskOfFlagSet s) = s := by
    intro s
    ext i
    rw [Exchange.flagSetOfMask, Finset.mem_filter]
    simp only [Finset.mem_univ, true_and]
    rw [flagOfIndex_eq i, and_two_pow_ne_zero, testBit_maskOfFlagSet]
    constructor
    · rintro ⟨i', hi', hv⟩
      rwa [show i' = i from Fin.ext hv] at hi'
    · intro hi
      exact ⟨i, hi, rfl⟩
  refine ⟨by decide, by decide, hdecomp, ?_⟩
  intro s t h
  rw [← hdecomp s, ← hdecomp t, h]

theorem getD_append_lt (l : List Nat) (a : Nat) (i : Nat) (h : i < l.length) :
    (l ++ [a]).getD i 0 = l.getD i 0 := by
  rw [List.getD_eq_getElem _ _ (by simp; omega), List.getD_eq_getElem _ _ h]
  exact List.getElem_append_left h

theorem getD_append_len (l : List Nat) (a : Nat) :
    (l ++ [a]).getD l.length 0 = a := by
  rw [List.getD_eq_getElem _ _ (by simp)]
  simp

theorem getD_mem (l : List Nat) (i : Nat) (h : i < l.length) : l.getD i 0 ∈ l := by
  rw [List.getD_eq_getElem _ _ h]
  exact List.getElem_mem h

theorem pairwise_le_getD_mono (l : List Nat) (h : l.Pairwise (· ≤ ·))
    (i j : Nat) (hij : i ≤ j) (hj : j < l.length) : l.getD i 0 ≤ l.getD j 0 := by
  rcases Nat.lt_or_ge i j with hlt | hge
  · rw [List.getD_eq_getElem _ _ (by omega), List.getD_eq_getElem _ _ hj]
    exact List.pairwise_iff_getElem.mp h i j (by omega) hj hlt
  · have : i = j := by omega
    subst this
    exact le_refl _

theorem admitTimesAux_sorted_gap (r : Request.RateLimit) (hr : 0 < r.rate) :
    ∀ (reqs adm : List Nat) (tprev : Nat),
      reqs.Pairwise (· ≤ ·) → (∀ t ∈ reqs, tprev ≤ t) →
      adm.Pairwise (· ≤ ·) → Request.GapOK r adm →
      (∀ t', tprev ≤ t' → ∀ x ∈ adm, x ≤ Request.nextAdmit r adm t') →
      (Request.admitTimesAux r adm reqs).Pairwise (· ≤ ·) ∧
        Request.GapOK r (Request.admitTimesAux r adm reqs) := by
  intro reqs
  induction reqs with
  | nil => intro adm tprev _ _ hps hgap _; exact ⟨hps, hgap⟩
  | cons t ts ih =>
    intro adm tprev hpw hd hps hgap hhead
    rw [Request.admitTimesAux]
    have hts : tprev ≤ t := hd t (List.mem_cons_self t ts)
    set a := Request.nextAdmit r adm t with ha
    have hxa : ∀ x ∈ adm, x ≤ a := hhead t hts
    have hps' : (adm ++ [a]).Pairwise (· ≤ ·) := by
      rw [List.pairwise_append]
      exact ⟨hps, List.pairwise_singleton _ _,
        fun x hx y hy => by rw [List.mem_singleton.mp hy]; exact hxa x hx⟩
    have hgap' : Request.GapOK r (adm ++ [a]) := by
      intro i hi
      simp only [List.length_append, List.length_singleton] at hi
      rcases Nat.lt_or_ge (i + r.rate) adm.length with hlt | hge
      · rw [getD_append_lt _ _ _ (by omega), getD_append_lt _ _ _ hlt]
        exact hgap i hlt
      · have hieq : i + r.rate = adm.length := by omega
        rw [hieq, getD_append_len, getD_append_lt _ _ _ (by omega)]
        have hlen : ¬ adm.length < r.rate := by omega
        have hi' : adm.length - r.rate = i := by omega
        rw [ha, Request.nextAdmit, if_neg hlen, hi']
        exact le_max_right _ _
    have hhead' : ∀ t', t ≤ t' → ∀ x ∈ adm ++ [a], x ≤ Request.nextAdmit r (adm ++ [a]) t' := by
      intro t' ht' x hx
      have hxa' : x ≤ a := by
        rcases List.mem_append.mp hx with hx' | hx'
        · exact hxa x hx'
        · rw [List.mem_singleton.mp hx']
      refine le_trans hxa' ?_
      rw [Request.nextAdmit]
      by_cases hc : (adm ++ [a]).length < r.rate
      · -- still below capacity: admit at t'; a was also below capacity so a = t
        rw [if_pos hc]
        have hlen : adm.length < r.rate := by
          simp only [List.length_append, List.length_singleton] at hc; omega
        rw [ha, Request.nextAdmit, if_pos hlen]
        exact ht'
      · rw [if_neg hc]
        simp only [List.length_append, List.length_singleton] at hc
        rcases Nat.lt_or_ge adm.length r.rate with hlen | hlen
        · -- adm below capacity, adm ++ [a] exactly at capacity: a = t ≤ t'
          rw [ha, Request.nextAdmit, if_pos hlen]
          exact le_max_of_le_left ht'
        · -- both at capacity
          have hkey : adm.getD (adm.length - r.rate) 0 + r.duration ≤
              (adm ++ [a]).getD (adm.length + 1 - r.rate) 0 + r.duration := by
            rcases Nat.lt_or_ge (adm.length + 1 - r.rate) adm.length with hlt | hge2
            · rw [getD_append_lt _ _ _ hlt]
              have := pairwise_le_getD_mono adm hps (adm.length - r.rate)
                (adm.length + 1 - r.rate) (by omega) hlt
              omega
            · have heq : adm.length + 1 - r.rate = adm.length := by omega
              rw [heq, getD_append_len]
              have hmem : adm.getD (adm.length - r.rate) 0 ∈ adm :=
                getD_mem adm _ (by omega)
              have := hxa _ hmem
              omega
          have hlen2 : (adm ++ [a]).length - r.rate = adm.length + 1 - r.rate := by
            simp
          rw [hlen2]
          calc a = max t (adm.getD (adm.length - r.rate) 0 + r.duration) := by
                rw [ha, Request.nextAdmit, if_neg (by omega)]
            _ ≤ max t' ((adm ++ [a]).getD (adm.length + 1 - r.rate) 0 + r.duration) :=
                max_le_max ht' hkey
    have hdts : ∀ t'' ∈ ts, t ≤ t'' := fun t'' h => (List.pairwise_cons.mp hpw).1 t'' h
    exact ih (adm ++ [a]) t (List.pairwise_cons.mp hpw).2 hdts hps' hgap' hhead'

theorem admitTimes_sorted_gap (r : Request.RateLimit) (hr : 0 < r.rate)
    (reqs : List Nat) (hreqs : reqs.Pairwise (· ≤ ·)) :
    (Request.admitTimes r reqs).Pairwise (· ≤ ·) ∧ Request.GapOK r (Request.admitTimes r reqs) := by
  exact admitTimesAux_sorted_gap r hr reqs [] 0 hreqs (fun _ _ => Nat.zero_le _)
    List.Pairwise.nil (fun i hi => by simp at hi) (fun _ _ x hx => by simp at hx)

theorem gapOK_cons (r : Request.RateLimit) (a : Nat) (A : List Nat) (h : Request.GapOK r (a :: A)) :
    Request.GapOK r A := by
  intro i hi
  have := h (i + 1) (by simp; omega)
  rw [show i + 1 + r.rate = (i + r.rate) + 1 from by omega] at this
  simpa [List.getD_cons_succ] using this

theorem countP_window_le (r : Request.RateLimit) :
    ∀ (A : List Nat), A.Pairwise (· ≤ ·) → Request.GapOK r A → ∀ s : Nat,
      (A.countP fun x => decide (s < x) && decide (x ≤ s + r.duration)) ≤ r.rate := by
  intro A
  induction A with
  | nil => intro _ _ s; simp
  | cons a A' ih =>
    intro hpw hgap s
    by_cases hs : a ≤ s
    · rw [List.countP_cons]
      have : (decide (s < a) && decide (a ≤ s + r.duration)) = false := by
        simp [decide_eq_false (by omega : ¬ s < a)]
      rw [this]
      simpa using ih (List.pairwise_cons.mp hpw).2 (gapOK_cons r a A' hgap) s
    · -- a > s: use the take/drop decomposition of the whole list a :: A'
      push_neg at hs
      have hdrop0 : ((a :: A').drop r.rate).countP
          (fun x => decide (s < x) && decide (x ≤ s + r.duration)) = 0 := by
        rw [List.countP_eq_zero]
        intro x hx
        obtain ⟨m, hm, hxm⟩ := List.mem_iff_getElem.mp hx
        have hmlen : r.rate + m < (a :: A').length := by
          have := List.length_drop r.rate (a :: A')
          omega
        have hxval : x = (a :: A').getD (m + r.rate) 0 := by
          rw [← hxm, List.getElem_drop, List.getD_eq_getElem _ _ (by omega)]
          congr 1
          omega
        have hgapm : (a :: A').getD m 0 + r.duration ≤ (a :: A').getD (m + r.rate) 0 :=
          hgap m (by omega)
        have hmono : (a :: A').getD 0 0 ≤ (a :: A').getD m 0 :=
          pairwise_le_getD_mono _ hpw 0 m (Nat.zero_le m) (by omega)
        have hgt : s + r.duration < x := by
          have h0 : (a :: A').getD 0 0 = a := rfl
          omega
        simp [decide_eq_false (by omega : ¬ x ≤ s + r.duration)]
      calc (a :: A').countP (fun x => decide (s < x) && decide (x ≤ s + r.duration))
          = ((a :: A').take r.rate ++ (a :: A').drop r.rate).countP
              (fun x => decide (s < x) && decide (x ≤ s + r.duration)) := by
            rw [List.take_append_drop]
        _ = ((a :: A').take r.rate).countP
              (fun x => decide (s < x) && decide (x ≤ s + r.duration)) := by
            rw [List.countP_append, hdrop0]
            omega
        _ ≤ ((a :: A').take r.rate).length := List.countP_le_length _
        _ ≤ r.rate := by
            rw [List.length_take]
            exact min_le_left _ _

/-- C8: for the modelled dispatcher class with window 1 second and maximum 2
calls (`request.NewRateLimit(time.Second, rate)` as ItBit's `SetDefaults`
configures, times in milliseconds), three requests issued back-to-back are
admitted at times `[0, 0, 1000]` — the first two immediately, the third only
once a full second has elapsed since the first; and in general, for any rate
limit with a positive call budget and any nondecreasing request sequence,
admission times are nondecreasing, the admission lying `rate` calls after
another is at least one window later, and no window interval `(s, s + window]`
contains more than `rate` admissions — the excess request is held back
(blocks) until the window rolls over. -/
theorem rate_limiter_admits_at_most_rate_per_window
    (r : Request.RateLimit) (reqs : List Nat) (s : Nat)
    (hr : 0 < r.rate) (hreqs : reqs.Pairwise (· ≤ ·)) :
    Request.admitTimes ⟨1000, 2⟩ [0, 0, 0] = [0, 0, 1000] ∧
    (Request.admitTimes r reqs).Pairwise (· ≤ ·) ∧
    Request.GapOK r (Request.admitTimes r reqs) ∧
    ((Request.admitTimes r reqs).countP
      fun x => decide (s < x) && decide (x ≤ s + r.duration)) ≤ r.rate := by
  obtain ⟨hpw, hgap⟩ := admitTimes_sorted_gap r hr reqs hreqs
  exact ⟨by decide, hpw, hgap, countP_window_le r _ hpw hgap s⟩

theorem rate_limiter_admits_at_most_rate_per_window_witness :
    0 < (2 : Nat) ∧ ([0, 0, 0] : List Nat).Pairwise (· ≤ ·) ∧
    (Request.admitTimes ⟨1000, 2⟩ [0, 0, 0] = [0, 0, 1000] ∧
     (Request.admitTimes ⟨1000, 2⟩ [0, 0, 0]).Pairwise (· ≤ ·) ∧
     Request.GapOK ⟨1000, 2⟩ (Request.admitTimes ⟨1000, 2⟩ [0, 0, 0]) ∧
     ((Request.admitTimes ⟨1000, 2⟩ [0, 0, 0]).countP
       fun x => decide (0 < x) && decide (x ≤ 0 + 1000)) ≤ 2) :=
  ⟨by decide, by decide,
   rate_limiter_admits_at_most_rate_per_window ⟨1000, 2⟩ [0, 0, 0] 0
     (by decide) (by decide)⟩
